/-
Verification of the resilience core of the maap-py client library.

This development shallowly embeds the parts of the library covered by the
specification: the DPS job lifecycle tracker (submission-acknowledgment
parsing, status polling with bounded exponential backoff, results-document
parsing) and the multi-source data retrieval resolver (location selection,
scheme dispatch, 401 auth escalation).  External effects (HTTP requests,
S3 downloads, the filesystem) are modelled by explicit oracle functions and
an explicit world state recording files on disk and the network operations
performed, so that every definition is executable and every property can be
checked on concrete inputs.

Source files embedded:
  maap/dps/DpsHelper.py  (submit_job response handling, DPS-mode detection)
  maap/dps/dps_job.py    (DPSJob: set_submitted_job_result, wait_for_completion,
                          set_job_results_result)
  maap/Result.py         (Granule.__init__ location resolution, Result.getData,
                          Result._getHttpData)
-/
import Mathlib

namespace MaapPy

/-! ## String helpers mirroring the Python standard library

All helpers work on the underlying character lists with structural recursion,
so that every definition evaluates inside the kernel on concrete inputs.
-/

/-- The rest of `l` after stripping the leading occurrence of `p`, when `l`
starts with `p`. -/
def stripLeading? : List Char → List Char → Option (List Char)
  | [], l => some l
  | _, [] => none
  | a :: as, b :: bs => if a = b then stripLeading? as bs else none

/-- Python `str.startswith` on character lists. -/
def startsWithL (l p : List Char) : Bool :=
  (stripLeading? p l).isSome

/-- Python `str.startswith`. -/
def strStarts (s p : String) : Bool :=
  startsWithL s.data p.data

/-- Python `str.endswith`. -/
def strEnds (s p : String) : Bool :=
  startsWithL s.data.reverse p.data.reverse

/-- The suffix of `l` following the first occurrence of `sep`, or `none` when
`sep` does not occur (`sep` nonempty). -/
def afterFirst? (sep : List Char) : List Char → Option (List Char)
  | [] => none
  | c :: rest =>
    match stripLeading? sep (c :: rest) with
    | some rem => some rem
    | none => afterFirst? sep rest

/-- Whether a nonempty `needle` occurs as a substring (Python `in` on
strings). -/
def containsSub (s needle : String) : Bool :=
  (afterFirst? needle.data s.data).isSome

/-- ASCII lower-casing of one character (Python `str.lower` on the ASCII
status strings this library compares). -/
def charLower (c : Char) : Char :=
  if 65 ≤ c.toNat && c.toNat ≤ 90 then Char.ofNat (c.toNat + 32) else c

/-- Python `str.lower` (ASCII). -/
def pyLower (s : String) : String :=
  String.mk (s.data.map charLower)

/-- Python `os.path.join` for two components: if the second is absolute it
replaces the first, otherwise they are joined with a single `/`. -/
def ospathJoin (a b : String) : String :=
  if startsWithL b.data ['/'] then b
  else if a = "" || startsWithL a.data.reverse ['/'] then a ++ b
  else a ++ "/" ++ b

/-- Python `str.replace("/", "")`, as in
`self._downloadname.replace("/", "")`. -/
def stripSlashes (s : String) : String :=
  String.mk (s.data.filter (fun c => !(c = '/')))

/-- The suffix of `l` after the last `/`; all of `l` when there is none. -/
def afterLastSlashL (l : List Char) : List Char :=
  ((l.reverse.takeWhile (fun c => !(c = '/'))).reverse)

/-- The final segment of a path after the last `/` (Python
`os.path.basename`), and also Python `url[url.rfind("/") + 1:]`. -/
def basenameOf (p : String) : String :=
  String.mk (afterLastSlashL p.data)

/-- Characters scanned up to the first stop character: returns the prefix
before the stop and the remainder starting at the stop character. -/
def takeUntilStops : List Char → List Char → List Char × List Char
  | [], _ => ([], [])
  | c :: rest, stops =>
    if c ∈ stops then ([], c :: rest)
    else
      let r := takeUntilStops rest stops
      (c :: r.1, r.2)

/-- The `path` component of `urllib.parse.urlparse` for the URL shapes the
library handles: everything after the authority (the part following `://` up
to the first `/`, `?` or `#`), with query and fragment stripped; a string
without `://` is treated as a bare path with query and fragment stripped. -/
def urlPath (u : String) : String :=
  match afterFirst? [':', '/', '/'] u.data with
  | none => String.mk (takeUntilStops u.data ['?', '#']).1
  | some afterScheme =>
    let netSplit := takeUntilStops afterScheme ['/', '?', '#']
    match netSplit.2 with
    | '/' :: _ => String.mk (takeUntilStops netSplit.2 ['?', '#']).1
    | _ => ""

/-- The `netloc` component of `urllib.parse.urlparse` for URLs containing
`://`: the part following `://` up to the first `/`, `?` or `#`. -/
def urlNetloc (u : String) : String :=
  match afterFirst? [':', '/', '/'] u.data with
  | none => ""
  | some afterScheme => String.mk (takeUntilStops afterScheme ['/', '?', '#']).1

/-- Python `str.lstrip("/")`. -/
def lstripSlash (s : String) : String :=
  String.mk (s.data.dropWhile (· = '/'))

/-- Uppercase hexadecimal digit for a value below 16. -/
def hexDigitChar (n : Nat) : Char :=
  if n < 10 then Char.ofNat (48 + n) else Char.ofNat (55 + n)

/-- Whether a byte is left unencoded by `urllib.parse.quote`: the unreserved
characters `A-Z a-z 0-9 _ . - ~` plus the caller-supplied safe bytes. -/
def quoteSafeByte (safe : List Nat) (b : Nat) : Bool :=
  (65 ≤ b && b ≤ 90) || (97 ≤ b && b ≤ 122) || (48 ≤ b && b ≤ 57) ||
    b = 45 || b = 46 || b = 95 || b = 126 || safe.contains b

/-- The UTF-8 bytes of one character. -/
def utf8Bytes (c : Char) : List Nat :=
  let n := c.toNat
  if n < 128 then [n]
  else if n < 2048 then [192 + n / 64, 128 + n % 64]
  else if n < 65536 then
    [224 + n / 4096, 128 + (n / 64) % 64, 128 + n % 64]
  else
    [240 + n / 262144, 128 + (n / 4096) % 64, 128 + (n / 64) % 64, 128 + n % 64]

/-- Percent-encoding of one byte, `%XX` with uppercase hex digits. -/
def percentByte (b : Nat) : List Char :=
  ['%', hexDigitChar (b / 16), hexDigitChar (b % 16)]

/-- `urllib.parse.quote(s, safe)` over the UTF-8 bytes of `s`: safe and
unreserved bytes pass through, every other byte is percent-encoded.
`safe` is the list of additional safe byte values (Python default is `/`,
byte 47; `quote(s, safe="")` passes the empty list). -/
def pyQuote (s : String) (safe : List Nat) : String :=
  String.mk ((s.data.flatMap utf8Bytes).flatMap
    (fun b => if quoteSafeByte safe b then [Char.ofNat b] else percentByte b))

/-! ## DPSJob state and submission-acknowledgment handling

Embeds `DPSJob.set_submitted_job_result` (maap/dps/dps_job.py) and the
response handling of `DpsHelper.submit_job` (maap/dps/DpsHelper.py).
-/

/-- The DPSJob fields touched by submission handling; all start as `None`
(`DPSJob.__init__`). -/
structure DPSJobState where
  id : Option String := none
  status : Option String := none
  response_code : Option Nat := none
  error_details : Option String := none
  deriving Repr, DecidableEq

/-- The dictionary values `DpsHelper.submit_job` can return: the acknowledgment
dictionary with keys `status`, `http_status_code`, `job_id` and optional
`details`; the WPS-exception dictionary with keys `status_code` and `result`
only; or Python `None` (the implicit return when the parsed job id is `None`). -/
inductive SubmitReturn where
  | ackDict (status : String) (http_status_code : Nat) (job_id : String)
      (details : Option String)
  | exceptionDict (status_code : Nat) (result : String)
  | pyNone
  deriving Repr, DecidableEq

/-- Outcome of `xml.etree.ElementTree.fromstring` on the submission response
body, as far as `submit_job` inspects it: either the parse raised, or it
produced a root whose first child (if any) carries an optional text and an
optional `exceptionCode` attribute. -/
inductive SubmitParse where
  | parseFail
  | parsed (firstChild : Option (Option String × Option String))
  deriving Repr, DecidableEq

/-- Response handling of `DpsHelper.submit_job` (Part 3 of the source): a 200
response is parsed; a parse failure, a missing first child, or a missing
`exceptionCode` on the WPS-exception path all fall into the bare `except`
returning the failed acknowledgment with the raw body as `details`; a
non-200 response returns the same failed acknowledgment; a parsed job id of
`None` falls off the end of the function (Python returns `None`). -/
def submit_job_response (status_code : Nat) (text : String)
    (parse : SubmitParse) (wpsExceptionResult : String) : SubmitReturn :=
  if status_code = 200 then
    match parse with
    | .parseFail => .ackDict "failed" status_code "" (some text)
    | .parsed fc =>
      if containsSub text "Exception" then
        match fc with
        | none => .ackDict "failed" status_code "" (some text)
        | some c =>
          match c.2 with
          | none => .ackDict "failed" status_code "" (some text)
          | some _ => .exceptionDict 400 wpsExceptionResult
      else
        match fc with
        | none => .ackDict "failed" status_code "" (some text)
        | some c =>
          match c.1 with
          | some jobId => .ackDict "success" status_code jobId none
          | none => .pyNone
  else .ackDict "failed" status_code "" (some text)

/-- `DPSJob.set_submitted_job_result`: reads `status`, `job_id` and
`http_status_code` from the dictionary, and `details` when present.  A
dictionary lacking the `status` key (the WPS-exception dictionary) raises
`KeyError`; Python `None` raises `TypeError`. -/
def set_submitted_job_result (j : DPSJobState) :
    SubmitReturn → Except String DPSJobState
  | .ackDict st code jid details =>
    .ok { j with
          status := some st
          id := some jid
          response_code := some code
          error_details := match details with
            | some d => some d
            | none => j.error_details }
  | .exceptionDict _ _ => .error "KeyError: status"
  | .pyNone => .error "TypeError: argument of type NoneType"

/-! ## Results-document handling (`DPSJob.set_job_results_result`) -/

/-- An XML element as far as the results parser looks at it: a tag, optional
text, and child elements. -/
inductive XmlNode where
  | elem (tag : String) (text : Option String) (children : List XmlNode)
  deriving Repr

/-- Tag of an element. -/
def XmlNode.tag : XmlNode → String
  | .elem t _ _ => t

/-- Text of an element. -/
def XmlNode.text : XmlNode → Option String
  | .elem _ t _ => t

/-- Children of an element. -/
def XmlNode.children : XmlNode → List XmlNode
  | .elem _ _ c => c

/-- The text values of the `Data` children of one `Output` element, in
document order. -/
def dataTexts (c : XmlNode) : List (Option String) :=
  (c.children.filter (fun g => strEnds g.tag "Data")).map XmlNode.text

/-- Whether a root child takes the `Error` branch and actually enters its
inner loop (the branch that touches the nonexistent `self.traceback`). -/
def errorWithChild (c : XmlNode) : Bool :=
  !(strEnds c.tag "Output") && strEnds c.tag "Error" && !c.children.isEmpty

/-- The loop body of `DPSJob.set_job_results_result` over the root's children:
`Output`-suffixed tags append their `Data` texts to `outputs`; an
`Error`-suffixed tag with at least one child evaluates `self.traceback`,
which raises `AttributeError` (the class defines no `traceback` property;
`__init__` only sets the name-mangled `_DPSJob__traceback`).  The returned
list is the state of `job.outputs` when the loop ends or the error is
raised; the second component is the raised error, if any. -/
def setJobResults (outputs : List (Option String)) :
    List XmlNode → List (Option String) × Option String
  | [] => (outputs, none)
  | c :: rest =>
    if strEnds c.tag "Output" then
      setJobResults (outputs ++ dataTexts c) rest
    else if strEnds c.tag "Error" then
      match c.children with
      | [] => setJobResults outputs rest
      | _ => (outputs, some "AttributeError: DPSJob object has no attribute traceback")
    else setJobResults outputs rest

/-- All `Data` text values under `Output`-suffixed root children, in document
order: the values the results-refresh appends on a clean pass. -/
def dataValues (children : List XmlNode) : List (Option String) :=
  (children.filter (fun c => strEnds c.tag "Output")).flatMap dataTexts

/-! ## Job poller (`DPSJob.wait_for_completion` under `backoff.on_exception`)

The source decorates `wait_for_completion` with
`@backoff.on_exception(backoff.expo, Exception, max_value=64, max_time=172800)`;
the decorated body refreshes the status and raises `RuntimeError` while the
status is (case-insensitively) `accepted` or `running`.  The backoff driver
itself is third-party library code not present in this repository; it is
modelled here from the decorator parameters and the specification's
description: on each raised attempt the next wait is
`min(base * 2 ^ attempt, 64)` seconds (`backoff.expo` yields `2 ^ attempt`),
the loop gives up with a timeout once the total elapsed time reaches the
`max_time` budget of 172800 seconds, and any exception from the refresh call
(a transport error) is retried exactly like a pending status.
-/

/-- One status-refresh attempt: the refreshed status string, or a raised
transport exception. -/
inductive RefreshOutcome where
  | ok (status : String)
  | exn
  deriving Repr, DecidableEq

/-- How the polling loop ends: the job left the pending states with the given
status, or the 48-hour total-time budget was exhausted first. -/
inductive PollOutcome where
  | completed (status : String)
  | timedOut
  deriving Repr, DecidableEq

/-- `self.status.lower() in ["accepted", "running"]` (dps_job.py line 264). -/
def isPendingStatus (s : String) : Bool :=
  pyLower s = "accepted" || pyLower s = "running"

/-- Whether an attempt makes the decorated body raise: a pending status raises
`RuntimeError`, and a transport exception from `retrieve_status` is also an
exception for the `backoff` driver. -/
def attemptRaises : RefreshOutcome → Bool
  | .ok s => isPendingStatus s
  | .exn => true

/-- Modelled from the spec: the `backoff.expo` wait interval clamped by
`max_value=64` — `min(base * 2 ^ attempt, 64)` seconds with base 1· matching
`backoff.expo`'s `2 ^ attempt` sequence. -/
def waitInterval (attempt : Nat) : Nat :=
  min (2 ^ attempt) 64

/-- The `max_time` decorator parameter: 48 hours in seconds. -/
def maxTotalTime : Nat := 172800

/-- Modelled from the spec: the `backoff.on_exception` retry driver around
`wait_for_completion`, with the third-party driver's loop made explicit.
`refresh n` is the outcome of the status refresh on attempt `n`; `elapsed`
is the total seconds slept so far.  On a raising attempt the driver gives up
(timeout) once `elapsed` has reached the 172800-second budget, otherwise it
sleeps `waitInterval attempt` and retries.  Returns the outcome together with
the list of sleeps performed, in order.  `fuel` is a structural-recursion
bound; every step adds at least one second to `elapsed`, so any
`fuel > maxTotalTime - elapsed` behaves like the unbounded loop (fuel
exhaustion can then only occur at or beyond the budget, where the loop times
out anyway). -/
def pollAux (refresh : Nat → RefreshOutcome) :
    Nat → Nat → Nat → PollOutcome × List Nat
  | 0, _, _ => (.timedOut, [])
  | fuel + 1, attempt, elapsed =>
    match refresh attempt with
    | .ok s =>
      if isPendingStatus s then
        if maxTotalTime ≤ elapsed then (.timedOut, [])
        else
          let d := waitInterval attempt
          let r := pollAux refresh fuel (attempt + 1) (elapsed + d)
          (r.1, d :: r.2)
      else (.completed s, [])
    | .exn =>
      if maxTotalTime ≤ elapsed then (.timedOut, [])
      else
        let d := waitInterval attempt
        let r := pollAux refresh fuel (attempt + 1) (elapsed + d)
        (r.1, d :: r.2)

/-- The polling loop started at attempt 0 with an untouched time budget. -/
def wait_for_completion (refresh : Nat → RefreshOutcome) :
    PollOutcome × List Nat :=
  pollAux refresh (maxTotalTime + 1) 0 0

/-! ## Location resolver (`Granule.__init__`, maap/Result.py) -/

/-- The location fields `Granule.__init__` computes: `_location`, `_fallback`
and `_downloadname`. -/
structure LocInfo where
  location : Option String
  fallback : Option String
  downloadname : Option String
  deriving Repr, DecidableEq

/-- `Granule.__init__` location resolution over the granule's
`OnlineAccessURL` list (each record's `URL` value, after the singular-dict
normalization).  `none` models metadata without online-access URLs (the
lookup raises and the bare `except` leaves every field `None`); an empty
list fails the same way because the eagerly evaluated `next` default indexes
`[0]`.  `_location` is the first URL starting with `s3://`, defaulting to the
first URL in the list; `filename` is the basename of its parsed path; and
`_fallback` is the first URL starting with `https://` whose full URL ends
with `filename` (the primary itself is not excluded).  If `_location` is the
empty string the `if self._location:` guard skips the `filename` assignment,
the fallback generator then raises `NameError`, and the `except` leaves
`_fallback` and `_downloadname` as `None` while `_location` keeps the value
already assigned. -/
def granuleLocationInfo : Option (List String) → LocInfo
  | none => ⟨none, none, none⟩
  | some [] => ⟨none, none, none⟩
  | some (u0 :: us) =>
    let urls := u0 :: us
    let loc := ((urls.find? (fun u => strStarts u "s3://")).getD u0)
    if loc = "" then ⟨some "", none, none⟩
    else
      let filename := basenameOf (urlPath loc)
      let fb := urls.find? (fun u => strStarts u "https://" && strEnds u filename)
      ⟨some loc, fb, some filename⟩

/-! ## Retriever (`Result.getData` and `Result._getHttpData`, maap/Result.py)

I/O is made explicit: an `Env` of pure oracles stands for the `requests`,
`boto3`, `urllib` and `json` libraries, and a `World` records the files
present on disk and the network operations performed, in order.
-/

/-- A `requests` response as far as the retriever inspects it. -/
structure HttpResponse where
  status_code : Nat
  url : String
  text : String
  deriving Repr, DecidableEq

/-- One network operation performed by the retriever. -/
inductive NetOp where
  | httpGet (url : String) (headers : List (String × String))
  | s3Download (bucket : String) (key : String)
  | ftpRetrieve (url : String)
  deriving Repr, DecidableEq

/-- The ambient effect oracles: `requests.get` (keyed by URL and headers; the
response's `url` field is the final URL after redirects), the boto3 S3
object download, `urlretrieve` for FTP, and `json.loads` restricted to
string-valued objects (all the token endpoint returns). -/
structure Env where
  get : String → List (String × String) → HttpResponse
  s3_download : String → String → Except String Unit
  urlretrieve : String → Except String Unit
  json_loads : String → Except String (List (String × String))

/-- Files on disk and the network operations performed so far. -/
structure World where
  files : List String
  ops : List NetOp
  deriving Repr, DecidableEq

/-- Record one network operation. -/
def World.addOp (w : World) (op : NetOp) : World :=
  { w with ops := w.ops ++ [op] }

/-- Record a file write (`open(dest, "wb")` plus `copyfileobj`). -/
def World.write (w : World) (dest : String) : World :=
  { w with files := dest :: w.files }

/-- `os.path.exists`. -/
def World.exists (w : World) (dest : String) : Bool :=
  w.files.contains dest

/-- The DpsHelper fields `_getHttpData` reads: `running_in_dps` (both sentinel
files present), and in DPS mode the token endpoint, machine token and job id. -/
structure DpsCtx where
  running_in_dps : Bool
  dps_token_endpoint : String
  dps_machine_token : String
  job_id : String
  deriving Repr, DecidableEq

/-- The `Result`/`Granule` fields the retriever reads.  `cmr_algorithm_data`
models the constant `endpoints.CMR_ALGORITHM_DATA` (the endpoints module is
referenced by the source but is configuration wiring outside this core); all
properties proved below hold for every value of it. -/
structure ResultCtx where
  loc : LocInfo
  cmrFileUrl : String
  apiHeader : List (String × String)
  dps : DpsCtx
  cmr_algorithm_data : String

/-- The headers of the token-endpoint request issued in DPS mode. -/
def dpsTokenHeaders (d : DpsCtx) : List (String × String) :=
  [("dps-machine-token", d.dps_machine_token),
   ("dps-job-id", d.job_id),
   ("Accept", "application/json")]

/-- The authenticated retry headers built from the token pair. -/
def bearerBasicHeaders (userToken appToken : String) : List (String × String) :=
  [("Authorization", "Bearer " ++ userToken ++ ",Basic " ++ appToken),
   ("Connection", "close")]

/-- The MAAP-API relay URL used outside DPS mode:
`os.path.join(self._cmrFileUrl, quote(quote(url, safe="")), endpoints.CMR_ALGORITHM_DATA)`
— the original URL double-URL-encoded as one path segment. -/
def relayUrl (ctx : ResultCtx) (url : String) : String :=
  ospathJoin (ospathJoin ctx.cmrFileUrl (pyQuote (pyQuote url []) [47]))
    ctx.cmr_algorithm_data

/-- The fetch part of `_getHttpData`: the initial unauthenticated GET and, on
a 401, the auth escalation.  In DPS mode the token endpoint is called with
the machine token and job id; if that response is truthy (status below 400)
its JSON body is read and the response URL of the failed request is retried
with `Authorization: Bearer {user_token},Basic {app_token}` and
`Connection: close` (a falsy token response leaves the 401 response in
place); JSON errors and missing keys propagate.  Outside DPS mode the
request is re-issued against the relay URL with the caller's API header.
Returns the final response (or raised error) and the world with the
performed requests recorded. -/
def httpFetch (env : Env) (ctx : ResultCtx) (url : String) (w : World) :
    Except String HttpResponse × World :=
  let r0 := env.get url []
  let w0 := w.addOp (.httpGet url [])
  if r0.status_code = 401 then
    if ctx.dps.running_in_dps then
      let th := dpsTokenHeaders ctx.dps
      let tr := env.get ctx.dps.dps_token_endpoint th
      let w1 := w0.addOp (.httpGet ctx.dps.dps_token_endpoint th)
      if tr.status_code < 400 then
        match env.json_loads tr.text with
        | .error e => (.error e, w1)
        | .ok kvs =>
          match kvs.lookup "user_token" with
          | none => (.error "KeyError: user_token", w1)
          | some u =>
            match kvs.lookup "app_token" with
            | none => (.error "KeyError: app_token", w1)
            | some a =>
              let ah := bearerBasicHeaders u a
              (.ok (env.get r0.url ah), w1.addOp (.httpGet r0.url ah))
      else (.ok r0, w1)
    else
      let rel := relayUrl ctx url
      (.ok (env.get rel ctx.apiHeader), w0.addOp (.httpGet rel ctx.apiHeader))
  else (.ok r0, w0)

/-- `Result._getHttpData`: skip everything when the destination exists and
`overwrite` is false; otherwise fetch (with 401 escalation), call
`raise_for_status` on the final response, and stream the body to `dest`. -/
def getHttpData (env : Env) (ctx : ResultCtx) (url : String) (overwrite : Bool)
    (dest : String) (w : World) : Except String String × World :=
  if overwrite || !w.exists dest then
    match httpFetch env ctx url w with
    | (.error e, w1) => (.error e, w1)
    | (.ok r, w1) =>
      if 400 ≤ r.status_code then
        (.error ("HTTPError: " ++ toString r.status_code), w1)
      else (.ok dest, w1.write dest)
  else (.ok dest, w)

/-- `Result.getData`: compute the destination name (raising `AttributeError`
when `_downloadname` is `None`, before the missing-URL check is reached);
return `None` when `_location` is falsy; dispatch on the URL scheme.  FTP
fetches directly when the destination is absent or `overwrite` is set.  S3
recomputes the destination from the URL's last path segment, skips the
download when that file exists and `overwrite` is false, and on any failure
of the direct download falls back to `_getHttpData` on `_fallback` when one
exists, re-raising the original error otherwise.  Everything else goes to
`_getHttpData` directly. -/
def getData (env : Env) (ctx : ResultCtx) (destpath : String) (overwrite : Bool)
    (w : World) : Except String (Option String) × World :=
  match ctx.loc.downloadname with
  | none => (.error "AttributeError: NoneType object has no attribute replace", w)
  | some dn =>
    let destfile := stripSlashes dn
    let dest := ospathJoin destpath destfile
    match ctx.loc.location with
    | none => (.ok none, w)
    | some url =>
      if url = "" then (.ok none, w)
      else if strStarts url "ftp" then
        if overwrite || !w.exists dest then
          let w1 := w.addOp (.ftpRetrieve url)
          match env.urlretrieve url with
          | .ok _ => (.ok (some dest), w1.write dest)
          | .error e => (.error e, w1)
        else (.ok (some dest), w)
      else if strStarts url "s3" then
        let filename := basenameOf url
        let dest2 := ospathJoin destpath filename
        if overwrite || !w.exists dest2 then
          let bucket := urlNetloc url
          let key := lstripSlash (urlPath url)
          let w1 := w.addOp (.s3Download bucket key)
          match env.s3_download bucket key with
          | .ok _ => (.ok (some dest2), w1.write dest2)
          | .error e =>
            match ctx.loc.fallback with
            | some fb =>
              match getHttpData env ctx fb overwrite dest2 w1 with
              | (.ok d, w2) => (.ok (some d), w2)
              | (.error e2, w2) => (.error e2, w2)
            | none => (.error e, w1)
        else (.ok (some dest2), w)
      else
        match getHttpData env ctx url overwrite dest w with
        | (.ok d, w2) => (.ok (some d), w2)
        | (.error e2, w2) => (.error e2, w2)

/-! ## Concrete fixtures used by witness theorems -/

/-- A status oracle: one pending refresh, then `Succeeded`. -/
def refreshOnePending : Nat → RefreshOutcome :=
  fun n => .ok (["Running", "Succeeded"].getD n "Succeeded")

/-- A status oracle that always raises a transport exception. -/
def refreshAlwaysExn : Nat → RefreshOutcome := fun _ => .exn

/-- A results document with one `Output` of two `Data` URLs. -/
def resultsDocOk : List XmlNode :=
  [.elem "wps:self.id" (some "j1") [],
   .elem "wps:Output" none
     [.elem "wps:Data" (some "s3://bucket/x") [],
      .elem "wps:Data" (some "https://host/x") []]]

/-- A results document whose `Error` element follows one `Output`. -/
def resultsDocErr : List XmlNode :=
  [.elem "wps:Output" none [.elem "wps:Data" (some "s3://bucket/x") []],
   .elem "wps:Error" none [.elem "wps:Text" (some "traceback text") []]]

/-- An environment whose unauthenticated GETs (empty header list) return 401
and whose authenticated GETs succeed; the token endpoint returns a parsable
token pair. -/
def envDpsW : Env where
  get u hs := if hs = [] then ⟨401, u, "denied"⟩ else ⟨200, u, "tok"⟩
  s3_download _ _ := .error "ClientError"
  urlretrieve _ := .ok ()
  json_loads _ := .ok [("user_token", "U"), ("app_token", "A")]

/-- A granule context running inside DPS. -/
def ctxDpsW : ResultCtx :=
  ⟨⟨some "https://x", none, some "x"⟩, "https://api/cmr", [("token", "T")],
    ⟨true, "https://tok", "MT", "J1"⟩, "data"⟩

/-- The same granule context outside DPS (ADE relay path). -/
def ctxAdeW : ResultCtx :=
  ⟨⟨some "https://x", none, some "x"⟩, "https://api/cmr", [("token", "T")],
    ⟨false, "https://tok", "MT", "J1"⟩, "data"⟩

/-- An environment whose S3 downloads always raise and whose GETs succeed. -/
def envS3FailW : Env where
  get u _ := ⟨200, u, "content"⟩
  s3_download _ _ := .error "ClientError"
  urlretrieve _ := .ok ()
  json_loads _ := .ok []

/-- An S3 primary with an HTTPS fallback of the same basename. -/
def ctxS3FbW : ResultCtx :=
  ⟨⟨some "s3://b/k/file.h5", some "https://h/file.h5", some "file.h5"⟩,
    "c", [], ⟨false, "", "", ""⟩, "data"⟩

/-- An S3 primary without any fallback. -/
def ctxS3NoFbW : ResultCtx :=
  ⟨⟨some "s3://b/k/file.h5", none, some "file.h5"⟩,
    "c", [], ⟨false, "", "", ""⟩, "data"⟩

/-- An environment whose GETs all succeed. -/
def envHttpOkW : Env where
  get u _ := ⟨200, u, "content"⟩
  s3_download _ _ := .ok ()
  urlretrieve _ := .ok ()
  json_loads _ := .ok []

/-- A plain HTTPS-primary granule context. -/
def ctxHttpW : ResultCtx :=
  ⟨⟨some "https://h/file.h5", some "https://h/file.h5", some "file.h5"⟩,
    "c", [], ⟨false, "", "", ""⟩, "data"⟩

end MaapPy

namespace MaapPy

/-! ## Helper lemmas -/

/-- `stripLeading?` succeeds exactly on lists extending the pattern. -/
theorem stripLeading?_some (p : List Char) :
    ∀ (l r : List Char), stripLeading? p l = some r ↔ l = p ++ r := by
  induction p with
  | nil =>
    intro l r
    simp [stripLeading?]
  | cons a as ih =>
    intro l r
    cases l with
    | nil => simp [stripLeading?]
    | cons b bs =>
      by_cases hab : a = b
      · subst hab
        simp [stripLeading?, ih]
      · simp [stripLeading?, hab, Ne.symm hab]

/-- `startsWithL l p` holds exactly when `l = p ++ r` for some `r`. -/
theorem startsWithL_iff (l p : List Char) :
    startsWithL l p = true ↔ ∃ r, l = p ++ r := by
  simp only [startsWithL, Option.isSome_iff_exists]
  constructor
  · rintro ⟨r, hr⟩
    exact ⟨r, (stripLeading?_some p l r).mp hr⟩
  · rintro ⟨r, hr⟩
    exact ⟨r, (stripLeading?_some p l r).mpr hr⟩

/-- A successful `find?` splits the list at the first satisfying element. -/
theorem find?_first {α : Type} (p : α → Bool) (l : List α) (a : α)
    (h : l.find? p = some a) :
    ∃ pre post, l = pre ++ a :: post ∧ p a = true ∧ ∀ x ∈ pre, p x = false := by
  induction l with
  | nil => simp [List.find?] at h
  | cons b bs ih =>
    by_cases hb : p b = true
    · rw [List.find?_cons_of_pos _ hb] at h
      injection h with h
      refine ⟨[], bs, ?_, ?_, by simp⟩
      · rw [h]
        simp
      · rw [← h]
        exact hb
    · rw [List.find?_cons_of_neg _ (by simpa using hb)] at h
      obtain ⟨pre, post, hsplit, hpa, hpre⟩ := ih h
      refine ⟨b :: pre, post, by rw [hsplit]; rfl, hpa, ?_⟩
      intro x hx
      rcases List.mem_cons.mp hx with rfl | hx
      · simpa using hb
      · exact hpre x hx

/-! ## Claim theorems -/

/-- C1: a well-formed submission acknowledgment never makes
`set_submitted_job_result` throw; an acknowledgment with `status="failed"`
yields a job recording the acknowledgment's `details` in `error_details`
when present; and an unparsable 200 response body flows through
`submit_job`'s bare `except` into a job with `status="failed"` and the raw
body captured in `error_details`. -/
theorem submit_ack_never_throws_and_records_failure :
    (∀ (st jid : String) (code : Nat) (details : Option String),
      ∃ j : DPSJobState,
        set_submitted_job_result {} (.ackDict st code jid details) = .ok j) ∧
    (∀ (jid : String) (code : Nat) (d : String),
      ∃ j : DPSJobState,
        set_submitted_job_result {} (.ackDict "failed" code jid (some d)) = .ok j ∧
          j.status = some "failed" ∧ j.error_details = some d) ∧
    (∀ (text wpsRes : String),
      ∃ j : DPSJobState,
        set_submitted_job_result {}
            (submit_job_response 200 text .parseFail wpsRes) = .ok j ∧
          j.status = some "failed" ∧ j.error_details = some text) := by
  refine ⟨fun st jid code details => ⟨_, rfl⟩,
    fun jid code d => ⟨_, rfl, rfl, rfl⟩,
    fun text wpsRes => ?_⟩
  simp only [submit_job_response, if_pos rfl]
  exact ⟨_, rfl, rfl, rfl⟩

/-- The sleeps performed by the polling loop are exactly the clamped
exponential intervals of the consecutive attempt numbers. -/
theorem pollAux_sleeps_range (refresh : Nat → RefreshOutcome) :
    ∀ (fuel attempt elapsed : Nat),
      ∃ k, (pollAux refresh fuel attempt elapsed).2 =
        (List.range k).map (fun j => waitInterval (attempt + j)) := by
  intro fuel
  induction fuel with
  | zero => intro attempt elapsed; exact ⟨0, by simp [pollAux]⟩
  | succ n ih =>
    intro attempt elapsed
    cases hr : refresh attempt with
    | ok s =>
      by_cases hp : isPendingStatus s = true
      · by_cases ht : maxTotalTime ≤ elapsed
        · exact ⟨0, by simp [pollAux, hr, hp, ht]⟩
        · obtain ⟨k, hk⟩ := ih (attempt + 1) (elapsed + waitInterval attempt)
          refine ⟨k + 1, ?_⟩
          simp only [pollAux, hr, if_pos hp, if_neg ht]
          rw [hk, List.range_succ_eq_map, List.map_cons, List.map_map]
          simp only [Nat.add_zero]
          congr 1
          apply List.map_congr_left
          intro j _
          simp only [Function.comp_apply]
          congr 1
          omega
      · exact ⟨0, by simp [pollAux, hr, hp]⟩
    | exn =>
      by_cases ht : maxTotalTime ≤ elapsed
      · exact ⟨0, by simp [pollAux, hr, ht]⟩
      · obtain ⟨k, hk⟩ := ih (attempt + 1) (elapsed + waitInterval attempt)
        refine ⟨k + 1, ?_⟩
        simp only [pollAux, hr, if_neg ht]
        rw [hk, List.range_succ_eq_map, List.map_cons, List.map_map]
        simp only [Nat.add_zero]
        congr 1
        apply List.map_congr_left
        intro j _
        simp only [Function.comp_apply]
        congr 1
        omega

/-- C2: each sleep of the polling loop equals `min(2 ^ attempt, 64)` — in
particular no sleep exceeds 64 seconds; the loop returns immediately once a
refreshed status is (case-insensitively) neither `accepted` nor `running`;
and the status sequence `[Running, Running, Succeeded]` causes exactly two
sleeps (of 1 and 2 seconds) before returning. -/
theorem poller_backoff_bounded_sleeps :
    (∀ (refresh : Nat → RefreshOutcome) (fuel attempt elapsed i : Nat),
      i < ((pollAux refresh fuel attempt elapsed).2).length →
      ((pollAux refresh fuel attempt elapsed).2)[i]? =
          some (min (2 ^ (attempt + i)) 64)) ∧
    (∀ (refresh : Nat → RefreshOutcome) (fuel attempt elapsed : Nat),
      ∀ d ∈ (pollAux refresh fuel attempt elapsed).2, d ≤ 64) ∧
    (∀ (refresh : Nat → RefreshOutcome) (fuel attempt elapsed : Nat) (s : String),
      refresh attempt = .ok s → isPendingStatus s = false →
      pollAux refresh (fuel + 1) attempt elapsed = (.completed s, [])) ∧
    (wait_for_completion (fun n =>
        .ok (["Running", "Running", "Succeeded"].getD n "Succeeded")) =
      (.completed "Succeeded", [1, 2])) := by
  refine ⟨?_, ?_, fun refresh fuel attempt elapsed s hs hp => ?_, by decide⟩
  · intro refresh fuel attempt elapsed i hi
    obtain ⟨k, hk⟩ := pollAux_sleeps_range refresh fuel attempt elapsed
    rw [hk] at hi ⊢
    simp only [List.length_map, List.length_range] at hi
    rw [List.getElem?_map, List.getElem?_range hi]
    rfl
  · intro refresh fuel attempt elapsed d hd
    obtain ⟨k, hk⟩ := pollAux_sleeps_range refresh fuel attempt elapsed
    rw [hk] at hd
    obtain ⟨j, -, rfl⟩ := List.mem_map.mp hd
    exact Nat.min_le_right _ _
  · simp [pollAux, hs, hp]

/-- C3: when every attempt raises (the status never leaves the pending
states, or the transport keeps failing), the loop ends in the timeout
outcome; the timeout outcome is a different constructor from every completed
outcome, so a caller can distinguish "poll timed out" from "the job itself
reported `Failed`", which is the completed outcome the loop returns when a
refresh reports `Failed`. -/
theorem poll_timeout_distinct_from_job_failure :
    (∀ (refresh : Nat → RefreshOutcome) (fuel attempt elapsed : Nat),
      (∀ i, attemptRaises (refresh i) = true) →
      (pollAux refresh fuel attempt elapsed).1 = .timedOut) ∧
    (∀ s : String, PollOutcome.completed s ≠ PollOutcome.timedOut) ∧
    (wait_for_completion (fun _ => .ok "Failed") =
      (.completed "Failed", [])) := by
  refine ⟨?_, ?_, by decide⟩
  · intro refresh fuel
    induction fuel with
    | zero => intro attempt elapsed _; simp [pollAux]
    | succ n ih =>
      intro attempt elapsed hall
      cases hr : refresh attempt with
      | ok s =>
        have hp : isPendingStatus s = true := by
          have hone := hall attempt
          rw [hr] at hone
          exact hone
        by_cases ht : maxTotalTime ≤ elapsed
        · simp [pollAux, hr, hp, ht]
        · simp only [pollAux, hr, if_pos hp, if_neg ht]
          exact ih (attempt + 1) (elapsed + waitInterval attempt) hall
      | exn =>
        by_cases ht : maxTotalTime ≤ elapsed
        · simp [pollAux, hr, ht]
        · simp only [pollAux, hr, if_neg ht]
          exact ih (attempt + 1) (elapsed + waitInterval attempt) hall
  · intro s h
    cases h

/-- The error component of one results-refresh pass does not depend on the
outputs accumulated so far. -/
theorem setJobResults_snd_indep (children : List XmlNode) :
    ∀ (o o' : List (Option String)),
      (setJobResults o children).2 = (setJobResults o' children).2 := by
  induction children with
  | nil => intro o o'; rfl
  | cons c rest ih =>
    intro o o'
    by_cases ho : strEnds c.tag "Output" = true
    · simp only [setJobResults, if_pos ho]
      exact ih _ _
    · by_cases he : strEnds c.tag "Error" = true
      · simp only [setJobResults, if_neg ho, if_pos he]
        cases c.children with
        | nil => exact ih _ _
        | cons g gs => rfl
      · simp only [setJobResults, if_neg ho, if_neg he]
        exact ih _ _

/-- A clean results-refresh pass appends exactly the document-order `Data`
values of the `Output` elements. -/
theorem setJobResults_clean (children : List XmlNode) :
    ∀ (outputs : List (Option String)),
      (setJobResults outputs children).2 = none →
      (setJobResults outputs children).1 = outputs ++ dataValues children := by
  induction children with
  | nil => intro outputs _; simp [setJobResults, dataValues]
  | cons c rest ih =>
    intro outputs hnone
    by_cases ho : strEnds c.tag "Output" = true
    · simp only [setJobResults, if_pos ho] at hnone ⊢
      rw [ih _ hnone]
      simp [dataValues, ho, List.append_assoc]
    · by_cases he : strEnds c.tag "Error" = true
      · simp only [setJobResults, if_neg ho, if_pos he] at hnone ⊢
        cases hc : c.children with
        | nil =>
          rw [hc] at hnone
          rw [ih _ hnone]
          simp [dataValues, ho]
        | cons g gs =>
          rw [hc] at hnone
          simp at hnone
      · simp only [setJobResults, if_neg ho, if_neg he] at hnone ⊢
        rw [ih _ hnone]
        simp [dataValues, ho]

/-- Every results-refresh pass only ever appends: the accumulated outputs
are preserved as a prefix, on clean and on raising passes alike. -/
theorem setJobResults_appends (children : List XmlNode) :
    ∀ (outputs : List (Option String)),
      ∃ t, (setJobResults outputs children).1 = outputs ++ t := by
  induction children with
  | nil => intro outputs; exact ⟨[], by simp [setJobResults]⟩
  | cons c rest ih =>
    intro outputs
    by_cases ho : strEnds c.tag "Output" = true
    · simp only [setJobResults, if_pos ho]
      obtain ⟨t, ht⟩ := ih (outputs ++ dataTexts c)
      exact ⟨dataTexts c ++ t, by rw [ht, List.append_assoc]⟩
    · by_cases he : strEnds c.tag "Error" = true
      · simp only [setJobResults, if_neg ho, if_pos he]
        cases c.children with
        | nil => exact ih outputs
        | cons g gs => exact ⟨[], by simp⟩
      · simp only [setJobResults, if_neg ho, if_neg he]
        exact ih outputs

/-- C9: the results refresh appends every `Data` value, in document order, to
`job.outputs` without clearing the list — previously appended outputs are
always preserved as a prefix, a clean pass appends exactly the document's
`Data` values, and running a clean pass twice from an empty outputs list
duplicates every appended URL. -/
theorem results_refresh_appends_without_clearing :
    (∀ (outputs : List (Option String)) (children : List XmlNode),
      ∃ t, (setJobResults outputs children).1 = outputs ++ t) ∧
    (∀ (outputs : List (Option String)) (children : List XmlNode),
      (setJobResults outputs children).2 = none →
      (setJobResults outputs children).1 = outputs ++ dataValues children) ∧
    (∀ children : List XmlNode,
      (setJobResults [] children).2 = none →
      setJobResults (setJobResults [] children).1 children =
        ((setJobResults [] children).1 ++ (setJobResults [] children).1,
          none)) := by
  refine ⟨fun outputs children => setJobResults_appends children outputs,
    fun outputs children h => setJobResults_clean children outputs h, ?_⟩
  intro children hnone
  have hsnd : (setJobResults (setJobResults [] children).1 children).2 = none := by
    rw [setJobResults_snd_indep children _ []]
    exact hnone
  have hfst := setJobResults_clean children (setJobResults [] children).1 hsnd
  have hfirst := setJobResults_clean children [] hnone
  simp only [List.nil_append] at hfirst
  refine Prod.ext ?_ hsnd
  rw [hfst, hfirst]

/-- C9 witness: a clean two-`Data` document appended twice duplicates both
URLs. -/
theorem results_refresh_appends_witness :
    setJobResults (setJobResults [] resultsDocOk).1 resultsDocOk =
      ((setJobResults [] resultsDocOk).1 ++ (setJobResults [] resultsDocOk).1,
        none) :=
  results_refresh_appends_without_clearing.2.2 resultsDocOk (by decide)

/-- C10: a results document containing an `Error` element with at least one
child makes the refresh raise (the `DPSJob` object has no `traceback`
attribute to append to), while `job.outputs` keeps everything appended from
the `Output` elements processed before the first such `Error` element — the
operation is not atomic on this error path. -/
theorem results_refresh_error_not_atomic :
    ∀ (outputs : List (Option String)) (children : List XmlNode),
      (∃ c ∈ children, errorWithChild c = true) →
      (setJobResults outputs children).2 =
          some "AttributeError: DPSJob object has no attribute traceback" ∧
        (setJobResults outputs children).1 =
          outputs ++
            dataValues (children.takeWhile (fun c => !errorWithChild c)) := by
  intro outputs children
  induction children generalizing outputs with
  | nil => rintro ⟨c, hc, -⟩; cases hc
  | cons c rest ih =>
    intro hex
    by_cases hew : errorWithChild c = true
    · have ho : strEnds c.tag "Output" = false := by
        rcases h : strEnds c.tag "Output" with _ | _
        · rfl
        · rw [errorWithChild, h] at hew
          simp at hew
      have he : strEnds c.tag "Error" = true := by
        rcases h : strEnds c.tag "Error" with _ | _
        · rw [errorWithChild, h] at hew
          simp at hew
        · rfl
      have hcne : c.children ≠ [] := by
        intro hnil
        rw [errorWithChild, hnil] at hew
        simp at hew
      cases hc : c.children with
      | nil => exact absurd hc hcne
      | cons g gs =>
        constructor
        · simp [setJobResults, ho, he, hc]
        · have : (c :: rest).takeWhile (fun x => !errorWithChild x) = [] := by
            rw [List.takeWhile_cons]
            simp [hew]
          rw [this]
          simp [setJobResults, ho, he, hc, dataValues]
    · have htw : (c :: rest).takeWhile (fun x => !errorWithChild x) =
          c :: rest.takeWhile (fun x => !errorWithChild x) := by
        rw [List.takeWhile_cons]
        simp [hew]
      have hex' : ∃ x ∈ rest, errorWithChild x = true := by
        obtain ⟨x, hx, hxe⟩ := hex
        rcases List.mem_cons.mp hx with rfl | hx
        · exact absurd hxe hew
        · exact ⟨x, hx, hxe⟩
      by_cases ho : strEnds c.tag "Output" = true
      · obtain ⟨ih1, ih2⟩ := ih (outputs ++ dataTexts c) hex'
        refine ⟨?_, ?_⟩
        · simp only [setJobResults, if_pos ho]
          exact ih1
        · simp only [setJobResults, if_pos ho]
          rw [ih2, htw]
          simp [dataValues, ho, List.append_assoc]
      · by_cases he : strEnds c.tag "Error" = true
        · have ho' : strEnds c.tag "Output" = false := by
            cases h : strEnds c.tag "Output"
            · rfl
            · exact absurd h ho
          have hcnil : c.children = [] := by
            cases hc : c.children with
            | nil => rfl
            | cons g gs =>
              exact absurd (by simp [errorWithChild, ho', he, hc]) hew
          obtain ⟨ih1, ih2⟩ := ih outputs hex'
          refine ⟨?_, ?_⟩
          · simp only [setJobResults, if_neg ho, if_pos he, hcnil]
            exact ih1
          · simp only [setJobResults, if_neg ho, if_pos he, hcnil]
            rw [ih2, htw]
            simp [dataValues, ho]
        · obtain ⟨ih1, ih2⟩ := ih outputs hex'
          refine ⟨?_, ?_⟩
          · simp only [setJobResults, if_neg ho, if_neg he]
            exact ih1
          · simp only [setJobResults, if_neg ho, if_neg he]
            rw [ih2, htw]
            simp [dataValues, ho]

/-- C10 witness: the fixture document with an `Output` before the `Error`
raises while keeping the already-appended URL. -/
theorem results_refresh_error_witness :
    (setJobResults [] resultsDocErr).2 =
        some "AttributeError: DPSJob object has no attribute traceback" ∧
      (setJobResults [] resultsDocErr).1 =
        [] ++ dataValues (resultsDocErr.takeWhile (fun c => !errorWithChild c)) :=
  results_refresh_error_not_atomic [] resultsDocErr
    ⟨.elem "wps:Error" none [.elem "wps:Text" (some "traceback text") []],
      List.Mem.tail _ (List.Mem.head _), by decide⟩

/-- C4 counterexample: for the candidate list
`[ftp://h/file.h5, https://h2/file.h5]` no candidate is an S3 URL, yet the
resolved fallback (`https://h2/file.h5`) differs from the resolved primary
(`ftp://h/file.h5`), contradicting the claim that the fallback equals the
primary whenever no S3 candidate exists (the code's fallback search does not
exclude the primary and compares URL suffixes, not basenames, against the
primary's basename). -/
theorem granule_fallback_counterexample :
    (["ftp://h/file.h5", "https://h2/file.h5"].all
        (fun u => !(strStarts u "s3://")) = true) ∧
      granuleLocationInfo (some ["ftp://h/file.h5", "https://h2/file.h5"]) =
        ⟨some "ftp://h/file.h5", some "https://h2/file.h5", some "file.h5"⟩ ∧
      (granuleLocationInfo
          (some ["ftp://h/file.h5", "https://h2/file.h5"])).fallback ≠
        (granuleLocationInfo
          (some ["ftp://h/file.h5", "https://h2/file.h5"])).location := by
  exact ⟨by decide, by decide, by decide⟩

/-- C4 (amended): over a nonempty candidate list whose selected primary is
not the empty string, the resolver picks as primary the first candidate
whose URL starts with `s3://`, or the first candidate of any scheme if no
S3 candidate exists; the download name is the primary's URL basename; the
fallback is the first candidate — the primary not excluded — whose URL
starts with `https://` and whose URL ends with the primary's basename,
absent exactly when no candidate qualifies; consequently, when no S3
candidate exists and the first candidate is an `https://` URL ending with
its own basename, the fallback equals the primary. -/
theorem granule_location_resolver_amended (u0 : String) (us : List String)
    (hne : ((u0 :: us).find? (fun u => strStarts u "s3://")).getD u0 ≠ "") :
    ∃ p : String,
      (granuleLocationInfo (some (u0 :: us))).location = some p ∧
      (granuleLocationInfo (some (u0 :: us))).downloadname =
        some (basenameOf (urlPath p)) ∧
      ((∃ pre post, u0 :: us = pre ++ p :: post ∧ strStarts p "s3://" = true ∧
          ∀ x ∈ pre, strStarts x "s3://" = false) ∨
        ((∀ x ∈ u0 :: us, strStarts x "s3://" = false) ∧ p = u0)) ∧
      (∀ f, (granuleLocationInfo (some (u0 :: us))).fallback = some f →
        ∃ pre post, u0 :: us = pre ++ f :: post ∧
          (strStarts f "https://" && strEnds f (basenameOf (urlPath p))) = true ∧
          ∀ x ∈ pre,
            (strStarts x "https://" &&
              strEnds x (basenameOf (urlPath p))) = false) ∧
      ((granuleLocationInfo (some (u0 :: us))).fallback = none →
        ∀ x ∈ u0 :: us,
          (strStarts x "https://" &&
            strEnds x (basenameOf (urlPath p))) = false) ∧
      ((∀ x ∈ u0 :: us, strStarts x "s3://" = false) →
        strStarts u0 "https://" = true →
        strEnds u0 (basenameOf (urlPath u0)) = true →
        (granuleLocationInfo (some (u0 :: us))).fallback = some u0) := by
  have key : granuleLocationInfo (some (u0 :: us)) =
      ⟨some (((u0 :: us).find? (fun u => strStarts u "s3://")).getD u0),
        (u0 :: us).find? (fun u => strStarts u "https://" &&
          strEnds u (basenameOf (urlPath
            (((u0 :: us).find? (fun u => strStarts u "s3://")).getD u0)))),
        some (basenameOf (urlPath
          (((u0 :: us).find? (fun u => strStarts u "s3://")).getD u0)))⟩ := by
    simp only [granuleLocationInfo]
    rw [if_neg hne]
  refine ⟨((u0 :: us).find? (fun u => strStarts u "s3://")).getD u0,
    by rw [key], by rw [key], ?_, ?_, ?_, ?_⟩
  · cases hfind : (u0 :: us).find? (fun u => strStarts u "s3://") with
    | some a =>
      simp only [Option.getD_some]
      exact Or.inl (find?_first _ _ a hfind)
    | none =>
      simp only [Option.getD_none]
      exact Or.inr
        ⟨fun x hx => Bool.eq_false_iff.mpr (List.find?_eq_none.mp hfind x hx),
          trivial⟩
  · intro f hf
    rw [key] at hf
    exact find?_first _ _ f hf
  · intro hnone x hx
    rw [key] at hnone
    exact Bool.eq_false_iff.mpr (List.find?_eq_none.mp hnone x hx)
  · intro hall h1 h2
    have hfindnone : (u0 :: us).find? (fun u => strStarts u "s3://") = none :=
      List.find?_eq_none.mpr (fun x hx => by simp [hall x hx])
    rw [key, hfindnone]
    simp only [Option.getD_none]
    exact List.find?_cons_of_pos _ (by simp [h1, h2])

/-- C4 witness (amended theorem): a single `https://` candidate is its own
fallback. -/
theorem granule_location_resolver_amended_witness :
    ∃ p : String,
      (granuleLocationInfo (some ["https://h/a/file.h5"])).location = some p ∧
      (granuleLocationInfo (some ["https://h/a/file.h5"])).downloadname =
        some (basenameOf (urlPath p)) ∧
      ((∃ pre post, ["https://h/a/file.h5"] = pre ++ p :: post ∧
          strStarts p "s3://" = true ∧ ∀ x ∈ pre, strStarts x "s3://" = false) ∨
        ((∀ x ∈ ["https://h/a/file.h5"], strStarts x "s3://" = false) ∧
          p = "https://h/a/file.h5")) ∧
      (∀ f, (granuleLocationInfo (some ["https://h/a/file.h5"])).fallback =
          some f →
        ∃ pre post, ["https://h/a/file.h5"] = pre ++ f :: post ∧
          (strStarts f "https://" && strEnds f (basenameOf (urlPath p))) = true ∧
          ∀ x ∈ pre,
            (strStarts x "https://" &&
              strEnds x (basenameOf (urlPath p))) = false) ∧
      ((granuleLocationInfo (some ["https://h/a/file.h5"])).fallback = none →
        ∀ x ∈ ["https://h/a/file.h5"],
          (strStarts x "https://" &&
            strEnds x (basenameOf (urlPath p))) = false) ∧
      ((∀ x ∈ ["https://h/a/file.h5"], strStarts x "s3://" = false) →
        strStarts "https://h/a/file.h5" "https://" = true →
        strEnds "https://h/a/file.h5"
          (basenameOf (urlPath "https://h/a/file.h5")) = true →
        (granuleLocationInfo (some ["https://h/a/file.h5"])).fallback =
          some "https://h/a/file.h5") :=
  granule_location_resolver_amended "https://h/a/file.h5" [] (by decide)

/-- In DPS mode, a 401 on the initial GET makes `httpFetch` call the token
endpoint and retry the response URL with the bearer/basic header pair. -/
theorem httpFetch_dps (env : Env) (ctx : ResultCtx) (url : String) (w : World)
    (h401 : (env.get url []).status_code = 401)
    (hd : ctx.dps.running_in_dps = true)
    (htr : (env.get ctx.dps.dps_token_endpoint
      (dpsTokenHeaders ctx.dps)).status_code < 400)
    (kvs : List (String × String)) (u a : String)
    (hjson : env.json_loads (env.get ctx.dps.dps_token_endpoint
      (dpsTokenHeaders ctx.dps)).text = .ok kvs)
    (hu : kvs.lookup "user_token" = some u)
    (ha : kvs.lookup "app_token" = some a) :
    httpFetch env ctx url w =
      (.ok (env.get (env.get url []).url (bearerBasicHeaders u a)),
        ((w.addOp (.httpGet url [])).addOp
            (.httpGet ctx.dps.dps_token_endpoint (dpsTokenHeaders ctx.dps))).addOp
          (.httpGet (env.get url []).url (bearerBasicHeaders u a))) := by
  simp only [httpFetch]
  rw [if_pos h401, if_pos hd, if_pos htr]
  simp only [hjson, hu, ha]

/-- Outside DPS mode, a 401 makes `httpFetch` re-issue the request to the
relay URL with the caller's API header. -/
theorem httpFetch_relay (env : Env) (ctx : ResultCtx) (url : String) (w : World)
    (h401 : (env.get url []).status_code = 401)
    (hd : ctx.dps.running_in_dps = false) :
    httpFetch env ctx url w =
      (.ok (env.get (relayUrl ctx url) ctx.apiHeader),
        (w.addOp (.httpGet url [])).addOp
          (.httpGet (relayUrl ctx url) ctx.apiHeader)) := by
  simp only [httpFetch]
  rw [if_pos h401, if_neg (by simp [hd])]

/-- C5: on a 401 from the initial unauthenticated GET, the retriever
escalates according to the auth context: in DPS mode (both sentinel files
present) it calls the token endpoint with the machine token and job id and
retries the original URL with `Authorization: Bearer {user_token},Basic
{app_token}` and `Connection: close`; otherwise it re-issues the request to
the platform relay endpoint — the original URL double-URL-encoded as a path
segment — with the caller's API header.  Stated as the exact network trace
of `getHttpData`. -/
theorem http_401_auth_escalation (env : Env) (ctx : ResultCtx) (url : String)
    (overwrite : Bool) (dest : String) (w : World)
    (hnd : w.exists dest = false)
    (h401 : (env.get url []).status_code = 401)
    (hred : (env.get url []).url = url) :
    (ctx.dps.running_in_dps = true →
      ∀ (kvs : List (String × String)) (u a : String),
        (env.get ctx.dps.dps_token_endpoint
          (dpsTokenHeaders ctx.dps)).status_code < 400 →
        env.json_loads (env.get ctx.dps.dps_token_endpoint
          (dpsTokenHeaders ctx.dps)).text = .ok kvs →
        kvs.lookup "user_token" = some u →
        kvs.lookup "app_token" = some a →
        (getHttpData env ctx url overwrite dest w).2.ops =
          w.ops ++ [.httpGet url [],
            .httpGet ctx.dps.dps_token_endpoint (dpsTokenHeaders ctx.dps),
            .httpGet url (bearerBasicHeaders u a)]) ∧
    (ctx.dps.running_in_dps = false →
      (getHttpData env ctx url overwrite dest w).2.ops =
        w.ops ++ [.httpGet url [],
          .httpGet (relayUrl ctx url) ctx.apiHeader]) := by
  have hcond : (overwrite || !w.exists dest) = true := by
    rw [hnd]
    simp
  constructor
  · intro hd kvs u a htr hjson hu ha
    simp only [getHttpData]
    rw [if_pos hcond, httpFetch_dps env ctx url w h401 hd htr kvs u a hjson hu ha]
    rw [hred]
    split
    · rename_i e1 w1 heq
      simp at heq
    · rename_i r1 w1 heq
      simp only [Prod.mk.injEq, Except.ok.injEq] at heq
      obtain ⟨hr1, hw1⟩ := heq
      subst hr1
      subst hw1
      split
      · simp [World.addOp]
      · simp [World.addOp, World.write]
  · intro hd
    simp only [getHttpData]
    rw [if_pos hcond, httpFetch_relay env ctx url w h401 hd]
    split
    · rename_i e1 w1 heq
      simp at heq
    · rename_i r1 w1 heq
      simp only [Prod.mk.injEq, Except.ok.injEq] at heq
      obtain ⟨hr1, hw1⟩ := heq
      subst hr1
      subst hw1
      split
      · simp [World.addOp]
      · simp [World.addOp, World.write]

/-- A URL starting with `s3://` does not start with `ftp`, does start with
`s3`, and is not empty. -/
theorem strStarts_s3_facts (url : String) (h : strStarts url "s3://" = true) :
    strStarts url "ftp" = false ∧ strStarts url "s3" = true ∧ url ≠ "" := by
  obtain ⟨r, hr⟩ := (startsWithL_iff url.data ("s3://").data).mp h
  have hd : url.data = 's' :: '3' :: ':' :: '/' :: '/' :: r := hr
  refine ⟨?_, ?_, ?_⟩
  · show startsWithL url.data ("ftp").data = false
    rw [hd]
    rfl
  · show startsWithL url.data ("s3").data = true
    rw [hd]
    rfl
  · intro hurl
    rw [hurl] at hd
    exact absurd hd (by simp)

/-- C6: when the primary location is an `s3://` URL and the direct S3
download raises, `getData` falls back to the HTTPS fallback location when
one exists, and re-raises the original error unchanged when none exists. -/
theorem s3_failure_falls_back (env : Env) (ctx : ResultCtx)
    (destpath : String) (overwrite : Bool) (w : World) (url dn e : String)
    (hdn : ctx.loc.downloadname = some dn)
    (hloc : ctx.loc.location = some url)
    (hs3 : strStarts url "s3://" = true)
    (hnotex : w.exists (ospathJoin destpath (basenameOf url)) = false)
    (hfail : env.s3_download (urlNetloc url) (lstripSlash (urlPath url)) =
      .error e) :
    (∀ fb, ctx.loc.fallback = some fb →
      getData env ctx destpath overwrite w =
        (match getHttpData env ctx fb overwrite
            (ospathJoin destpath (basenameOf url))
            (w.addOp (.s3Download (urlNetloc url)
              (lstripSlash (urlPath url)))) with
          | (.ok d, w2) => (.ok (some d), w2)
          | (.error e2, w2) => (.error e2, w2))) ∧
    (ctx.loc.fallback = none →
      getData env ctx destpath overwrite w =
        (.error e,
          w.addOp (.s3Download (urlNetloc url) (lstripSlash (urlPath url))))) := by
  obtain ⟨hftp, hs3', hne⟩ := strStarts_s3_facts url hs3
  have hcond : (overwrite ||
      !w.exists (ospathJoin destpath (basenameOf url))) = true := by
    rw [hnotex]
    simp
  constructor
  · intro fb hfb
    simp only [getData, hdn, hloc]
    rw [if_neg hne, if_neg (by simp [hftp]), if_pos hs3', if_pos hcond]
    simp only [hfail, hfb]
  · intro hfb
    simp only [getData, hdn, hloc]
    rw [if_neg hne, if_neg (by simp [hftp]), if_pos hs3', if_pos hcond]
    simp only [hfail, hfb]

/-- C7: `Result.getData` on a granule whose metadata carried no online-access
URLs raises at `self._downloadname.replace("/", "")` — the `None`-valued
download name is dereferenced before the `if not url: return None` guard is
reached — instead of returning the documented `None`. -/
theorem getData_no_urls_raises (env : Env) (destpath : String)
    (overwrite : Bool) (w : World) (cmr alg : String)
    (hdr : List (String × String)) (d : DpsCtx) :
    getData env ⟨granuleLocationInfo none, cmr, hdr, d, alg⟩
        destpath overwrite w =
      (.error "AttributeError: NoneType object has no attribute replace", w) :=
  rfl

/-- A successful `getHttpData` returns exactly its destination argument, and
that destination exists afterwards. -/
theorem getHttpData_ok (env : Env) (ctx : ResultCtx) (url : String)
    (ov : Bool) (dest : String) (w : World) (p : String) (w' : World)
    (h : getHttpData env ctx url ov dest w = (.ok p, w')) :
    p = dest ∧ w'.exists dest = true := by
  by_cases hc : (ov || !w.exists dest) = true
  · simp only [getHttpData] at h
    rw [if_pos hc] at h
    rcases hf : httpFetch env ctx url w with ⟨res, w1⟩
    rw [hf] at h
    cases res with
    | error e => simp at h
    | ok r =>
      dsimp only at h
      by_cases hs : 400 ≤ r.status_code
      · rw [if_pos hs] at h
        simp at h
      · rw [if_neg hs] at h
        simp only [Prod.mk.injEq, Except.ok.injEq] at h
        obtain ⟨h1, h2⟩ := h
        subst h1
        rw [← h2]
        exact ⟨rfl, by simp [World.write, World.exists]⟩
  · simp only [getHttpData] at h
    rw [if_neg hc] at h
    simp only [Prod.mk.injEq, Except.ok.injEq] at h
    obtain ⟨h1, h2⟩ := h
    subst h1
    rw [← h2]
    refine ⟨rfl, ?_⟩
    cases hex : w.exists dest with
    | false => exact absurd (by rw [hex]; simp) hc
    | true => rfl

/-- When the destination already exists and `overwrite` is false,
`getHttpData` returns it with no change to the world. -/
theorem getHttpData_skip (env : Env) (ctx : ResultCtx) (url : String)
    (dest : String) (w : World) (h : w.exists dest = true) :
    getHttpData env ctx url false dest w = (.ok dest, w) := by
  simp only [getHttpData]
  rw [if_neg (by simp [h])]

/-- C8: retrieval is idempotent under `overwrite=False`: whenever a `getData`
call succeeds with a path, re-running it with `overwrite=False` returns the
same path and leaves the world untouched — in particular the second call
performs zero network operations — for every scheme branch (FTP, S3 with or
without HTTPS fallback, HTTP(S)). -/
theorem getData_idempotent (env : Env) (ctx : ResultCtx) (destpath : String)
    (ov : Bool) (w : World) (p : String) (w' : World)
    (h : getData env ctx destpath ov w = (.ok (some p), w')) :
    getData env ctx destpath false w' = (.ok (some p), w') := by
  cases hdn : ctx.loc.downloadname with
  | none =>
    simp only [getData, hdn] at h
    simp at h
  | some dn =>
    cases hloc : ctx.loc.location with
    | none =>
      simp only [getData, hdn, hloc] at h
      simp at h
    | some url =>
      simp only [getData, hdn, hloc] at h ⊢
      by_cases hemp : url = ""
      · rw [if_pos hemp] at h
        simp at h
      · rw [if_neg hemp] at h ⊢
        by_cases hftp : strStarts url "ftp" = true
        · rw [if_pos hftp] at h ⊢
          by_cases hc :
              (ov || !w.exists (ospathJoin destpath (stripSlashes dn))) = true
          · rw [if_pos hc] at h
            cases hr : env.urlretrieve url with
            | ok uu =>
              rw [hr] at h
              simp only [Prod.mk.injEq, Except.ok.injEq,
                Option.some.injEq] at h
              obtain ⟨h1, h2⟩ := h
              subst h1
              rw [← h2]
              rw [if_neg (by simp [World.write, World.exists, World.addOp])]
            | error e =>
              rw [hr] at h
              simp at h
          · rw [if_neg hc] at h
            simp only [Prod.mk.injEq, Except.ok.injEq, Option.some.injEq] at h
            obtain ⟨h1, h2⟩ := h
            subst h1
            rw [← h2]
            have hex : w.exists (ospathJoin destpath (stripSlashes dn)) = true := by
              cases hex : w.exists (ospathJoin destpath (stripSlashes dn)) with
              | false => exact absurd (by rw [hex]; simp) hc
              | true => rfl
            rw [if_neg (by simp [hex])]
        · rw [if_neg hftp] at h ⊢
          by_cases hs3 : strStarts url "s3" = true
          · rw [if_pos hs3] at h ⊢
            by_cases hc :
                (ov || !w.exists (ospathJoin destpath (basenameOf url))) = true
            · rw [if_pos hc] at h
              cases hr : env.s3_download (urlNetloc url)
                  (lstripSlash (urlPath url)) with
              | ok uu =>
                rw [hr] at h
                simp only [Prod.mk.injEq, Except.ok.injEq,
                  Option.some.injEq] at h
                obtain ⟨h1, h2⟩ := h
                subst h1
                rw [← h2]
                rw [if_neg (by simp [World.write, World.exists, World.addOp])]
              | error e =>
                rw [hr] at h
                cases hfb : ctx.loc.fallback with
                | none =>
                  rw [hfb] at h
                  simp at h
                | some fb =>
                  rw [hfb] at h
                  dsimp only at h
                  rcases hg : getHttpData env ctx fb ov
                      (ospathJoin destpath (basenameOf url))
                      (w.addOp (.s3Download (urlNetloc url)
                        (lstripSlash (urlPath url)))) with ⟨res, w2⟩
                  rw [hg] at h
                  cases res with
                  | error e2 => simp at h
                  | ok dd =>
                    simp only [Prod.mk.injEq, Except.ok.injEq,
                      Option.some.injEq] at h
                    obtain ⟨h1, h2⟩ := h
                    obtain ⟨hd1, hd2⟩ := getHttpData_ok env ctx fb ov _ _ dd w2 hg
                    subst h1
                    rw [← h2]
                    rw [if_neg (by simp [hd2]), hd1]
            · rw [if_neg hc] at h
              simp only [Prod.mk.injEq, Except.ok.injEq, Option.some.injEq] at h
              obtain ⟨h1, h2⟩ := h
              subst h1
              rw [← h2]
              have hex : w.exists (ospathJoin destpath (basenameOf url)) = true := by
                cases hex : w.exists (ospathJoin destpath (basenameOf url)) with
                | false => exact absurd (by rw [hex]; simp) hc
                | true => rfl
              rw [if_neg (by simp [hex])]
          · rw [if_neg hs3] at h ⊢
            rcases hg : getHttpData env ctx url ov
                (ospathJoin destpath (stripSlashes dn)) w with ⟨res, w2⟩
            rw [hg] at h
            cases res with
            | error e2 => simp at h
            | ok dd =>
              simp only [Prod.mk.injEq, Except.ok.injEq, Option.some.injEq] at h
              obtain ⟨h1, h2⟩ := h
              obtain ⟨hd1, hd2⟩ := getHttpData_ok env ctx url ov _ _ dd w2 hg
              subst h1
              rw [← h2]
              rw [getHttpData_skip env ctx url _ _ hd2, hd1]

/-- C5 witness: the DPS escalation trace and the relay escalation trace on
the concrete 401 environment. -/
theorem http_401_auth_escalation_witness :
    (getHttpData envDpsW ctxDpsW "https://x" false "d" ⟨[], []⟩).2.ops =
        [] ++ [.httpGet "https://x" [],
          .httpGet "https://tok" (dpsTokenHeaders ctxDpsW.dps),
          .httpGet "https://x" (bearerBasicHeaders "U" "A")] ∧
      (getHttpData envDpsW ctxAdeW "https://x" false "d" ⟨[], []⟩).2.ops =
        [] ++ [.httpGet "https://x" [],
          .httpGet (relayUrl ctxAdeW "https://x") ctxAdeW.apiHeader] :=
  ⟨(http_401_auth_escalation envDpsW ctxDpsW "https://x" false "d" ⟨[], []⟩
      rfl rfl rfl).1 rfl [("user_token", "U"), ("app_token", "A")] "U" "A"
      (by decide) rfl rfl rfl,
    (http_401_auth_escalation envDpsW ctxAdeW "https://x" false "d" ⟨[], []⟩
      rfl rfl rfl).2 rfl⟩

/-- C6 witness: a failing S3 download dispatches to the HTTPS fallback when
one exists and re-raises the original error when none does. -/
theorem s3_failure_falls_back_witness :
    (getData envS3FailW ctxS3FbW "/tmp" false ⟨[], []⟩ =
      (match getHttpData envS3FailW ctxS3FbW "https://h/file.h5" false
          (ospathJoin "/tmp" (basenameOf "s3://b/k/file.h5"))
          (World.addOp ⟨[], []⟩ (.s3Download (urlNetloc "s3://b/k/file.h5")
            (lstripSlash (urlPath "s3://b/k/file.h5")))) with
        | (.ok d, w2) => (.ok (some d), w2)
        | (.error e2, w2) => (.error e2, w2))) ∧
      getData envS3FailW ctxS3NoFbW "/tmp" false ⟨[], []⟩ =
        (.error "ClientError",
          World.addOp ⟨[], []⟩ (.s3Download (urlNetloc "s3://b/k/file.h5")
            (lstripSlash (urlPath "s3://b/k/file.h5")))) :=
  ⟨(s3_failure_falls_back envS3FailW ctxS3FbW "/tmp" false ⟨[], []⟩
      "s3://b/k/file.h5" "file.h5" "ClientError" rfl rfl (by decide) rfl
      rfl).1 "https://h/file.h5" rfl,
    (s3_failure_falls_back envS3FailW ctxS3NoFbW "/tmp" false ⟨[], []⟩
      "s3://b/k/file.h5" "file.h5" "ClientError" rfl rfl (by decide) rfl
      rfl).2 rfl⟩

/-- C8 witness: after one successful HTTPS download, re-running `getData`
with `overwrite=False` returns the same path and performs no further
network operation. -/
theorem getData_idempotent_witness :
    getData envHttpOkW ctxHttpW "/tmp" false
        ⟨["/tmp/file.h5"], [.httpGet "https://h/file.h5" []]⟩ =
      (.ok (some "/tmp/file.h5"),
        ⟨["/tmp/file.h5"], [.httpGet "https://h/file.h5" []]⟩) :=
  getData_idempotent envHttpOkW ctxHttpW "/tmp" false ⟨[], []⟩ "/tmp/file.h5"
    ⟨["/tmp/file.h5"], [.httpGet "https://h/file.h5" []]⟩ (by rfl)

/-- C3 witness: a permanently raising refresh ends in the timeout outcome. -/
theorem poll_timeout_distinct_witness :
    (pollAux refreshAlwaysExn 5 0 0).1 = .timedOut :=
  poll_timeout_distinct_from_job_failure.1 refreshAlwaysExn 5 0 0 (fun _ => rfl)

/-- C2 witness: for the one-pending oracle the first sleep is
`min(2 ^ 0, 64) = 1`, and a non-pending first status returns with no sleeps. -/
theorem poller_backoff_bounded_witness :
    ((pollAux refreshOnePending 172801 0 0).2)[0]? =
        some (min (2 ^ (0 + 0)) 64) ∧
      pollAux (fun _ => .ok "Failed") 3 0 0 = (.completed "Failed", []) :=
  ⟨poller_backoff_bounded_sleeps.1 refreshOnePending 172801 0 0 0 (by decide),
    poller_backoff_bounded_sleeps.2.2.1 (fun _ => .ok "Failed") 2 0 0 "Failed"
      rfl (by decide)⟩

end MaapPy
